import Mathlib

/-!
Verification of the AoPS answer-key scraper core (src/main.py) against its
specification.  The HTML page is embedded as a tree of element and text
nodes; the three extraction functions of the source — `scrape_answers`
(answer-list extraction after a fetch), `fetch_solution_sections`
(table-of-contents section titles) and `extract_solution_content`
(section text fragments) — are translated as pure functions over that
tree.  The LaTeX-to-text collaborator is a parameter `conv`; the fetch
layer is modelled by a `FetchResult` that is either a parsed page or a
network error.  A Python exception is modelled by `Option.none` in the
result of `extract_solution_content`.
-/

/-- A parsed HTML node: an element with a tag name, an attribute list and
ordered children, or a text node.  A page (the BeautifulSoup document
object) is the root `Node`; searches such as `find_all` range over its
descendants, i.e. over the subtrees of its children. -/
inductive Node where
  | element (tag : String) (attrs : List (String × String)) (children : List Node)
  | text (s : String)

/-- Children of a node (a text node has none). -/
def Node.childrenOf : Node → List Node
  | .element _ _ cs => cs
  | .text _ => []

/-- Tag name of a node, `none` for text nodes: `getattr(x, "name", None)`. -/
def Node.tagOf : Node → Option String
  | .element t _ _ => some t
  | .text _ => none

/-- Attribute lookup, as `attrs.get(key)` on a BeautifulSoup tag. -/
def getAttr (attrs : List (String × String)) (k : String) : Option String :=
  (attrs.find? (fun p => p.1 = k)).map (fun p => p.2)

/-- The whitespace characters of Python `str.strip()`. -/
def isPySpace (c : Char) : Bool :=
  c = ' ' || c = '\t' || c = '\n' || c = '\r' || c = Char.ofNat 11 || c = Char.ofNat 12

/-- Python `s.strip()`: remove leading and trailing whitespace. -/
def pyStrip (s : String) : String :=
  String.mk (((s.toList.dropWhile isPySpace).reverse.dropWhile isPySpace).reverse)

/-- Python `s.strip("\n")`: remove leading and trailing newline characters. -/
def stripNL (s : String) : String :=
  String.mk (((s.toList.dropWhile (fun c => c = '\n')).reverse.dropWhile
    (fun c => c = '\n')).reverse)

/-- Modelled from the spec (for comparison with `stripNL`, which is the
source behaviour): strip trailing newline characters only, and nothing
else. -/
def stripTrailingNL (s : String) : String :=
  String.mk ((s.toList.reverse.dropWhile (fun c => c = '\n')).reverse)

/-- Split a character list on spaces, accumulating the current token in
reverse; the semantics of `String.splitOn " "`. -/
def splitSpaces : List Char → List Char → List String
  | [], acc => [String.mk acc.reverse]
  | c :: rest, acc =>
      if c = ' ' then String.mk acc.reverse :: splitSpaces rest []
      else splitSpaces rest (c :: acc)

/-- The class tokens of an attribute list: the `class` attribute split on
spaces, as BeautifulSoup matches `class_=`. -/
def classTokens (attrs : List (String × String)) : List String :=
  splitSpaces ((getAttr attrs "class").getD "").toList []

mutual

/-- Full text of a node, as BeautifulSoup `.text`: the concatenation of
all descendant text nodes in document order. -/
def textContent : Node → String
  | .text s => s
  | .element _ _ cs => textContentList cs

def textContentList : List Node → String
  | [] => ""
  | c :: rest => textContent c ++ textContentList rest

end

mutual

/-- `find_all(class_=c)` on the subtree rooted at a node, the node itself
included, in document (pre-)order. -/
def subtreeByClass (c : String) : Node → List Node
  | .text _ => []
  | .element t a cs =>
      (if (classTokens a).contains c then [Node.element t a cs] else [])
        ++ subtreeByClassList c cs

def subtreeByClassList (c : String) : List Node → List Node
  | [] => []
  | n :: rest => subtreeByClass c n ++ subtreeByClassList c rest

end

/-- `soup.find_all(class_=c)`: all matching descendants of the document
root, in document order. -/
def findAllByClass (c : String) (soup : Node) : List Node :=
  subtreeByClassList c soup.childrenOf

mutual

/-- `find("div", class_="mw-parser-output")` on a subtree: first matching
node in document order, the subtree root included. -/
def findMwNode : Node → Option Node
  | .text _ => none
  | .element t a cs =>
      if t = "div" && (classTokens a).contains "mw-parser-output" then
        some (Node.element t a cs)
      else findMwList cs

def findMwList : List Node → Option Node
  | [] => none
  | n :: rest =>
      match findMwNode n with
      | some x => some x
      | none => findMwList rest

end

/-- `soup.find("div", class_="mw-parser-output")` from the document root
(line 143 of src/main.py). -/
def findMw (soup : Node) : Option Node :=
  findMwList soup.childrenOf

/-- Parent-chain context for the CSS selector
`div.mw-parser-output > ol > li`: whether the current children list hangs
directly under the content div, directly under an `ol` that hangs under
it, or anywhere else. -/
inductive Ctx where
  | other
  | underMw
  | olUnderMw
deriving DecidableEq

/-- Context for the children of an element seen in context `c`. -/
def childCtx (t : String) (a : List (String × String)) (c : Ctx) : Ctx :=
  if t = "div" && (classTokens a).contains "mw-parser-output" then .underMw
  else if t = "ol" && c = Ctx.underMw then .olUnderMw
  else .other

mutual

/-- The matches of `soup.select("div.mw-parser-output > ol > li")` inside
one node, in document order: an `li` matches when its parent is an `ol`
whose own parent is a `div` of class `mw-parser-output` (line 120 of
src/main.py). -/
def answerLisNode (c : Ctx) : Node → List Node
  | .text _ => []
  | .element t a cs =>
      (if c = Ctx.olUnderMw && t = "li" then [Node.element t a cs] else [])
        ++ answerLisList (childCtx t a c) cs

def answerLisList (c : Ctx) : List Node → List Node
  | [] => []
  | n :: rest => answerLisNode c n ++ answerLisList c rest

end

/-- The list-item elements selected by `scrape_answers`. -/
def answerItems (soup : Node) : List Node :=
  answerLisList Ctx.other soup.childrenOf

/-- Outcome of the fetch layer: a parsed page on HTTP success, or a
network error (timeout, connection failure, or non-success status raised
by `raise_for_status`). -/
inductive FetchResult where
  | success (page : Node)
  | networkError

/-- `scrape_answers` (src/main.py lines 108-129) after the fetch: on a
network error the `except` branch returns `None`; on a fetched page it
selects `div.mw-parser-output > ol > li`, returns `None` when no element
matches, and otherwise the list comprehension
`[li.text.strip() for li in elements if li.text.strip()]`. -/
def scrape_answers (fr : FetchResult) : Option (List String) :=
  match fr with
  | .networkError => none
  | .success page =>
      let elements := answerItems page
      if elements.isEmpty then none
      else
        some (elements.filterMap (fun li =>
          if pyStrip (textContent li) = "" then none
          else some (pyStrip (textContent li))))

/-- The display text of one table-of-contents entry:
`content.find(class_="toctext")`, its text stripped; `none` when the
entry has no such descendant. -/
def tocDisplay (content : Node) : Option String :=
  ((subtreeByClassList "toctext" content.childrenOf).head?).map
    (fun t => pyStrip (textContent t))

/-- `fetch_solution_sections` (src/main.py lines 133-140): for every
`toclevel-1` node in document order, the stripped text of its first
`toctext` descendant, entries without one skipped. -/
def fetch_solution_sections (soup : Node) : List String :=
  (findAllByClass "toclevel-1" soup).filterMap tocDisplay

mutual

/-- `mw_content.find_all("h2")` in document order, each heading paired
with its following siblings (the nodes after it in the child list of
its parent), which is what the `next_sibling` walk of
`extract_solution_content` traverses. -/
def h2PairsNode : Node → List (Node × List Node)
  | .text _ => []
  | .element _ _ cs => h2PairsList cs

def h2PairsList : List Node → List (Node × List Node)
  | [] => []
  | n :: rest =>
      (match n with
       | .element "h2" a cs => [(Node.element "h2" a cs, rest)]
       | _ => []) ++ h2PairsNode n ++ h2PairsList rest

end

mutual

/-- One step of the `for elem in sibling.descendants` loop of
`extract_solution_content` (src/main.py lines 163-170): an `img`
contributes `converter.latex_to_text(elem.get("alt", "")).strip("\n")`
unconditionally; a string contributes its stripped text only when
non-empty (the source strips twice: `text = elem.strip()`, then
`append(text.strip())`); any other element contributes nothing itself
but its descendants are visited, in document order. -/
def descNode (conv : String → String) : Node → List String
  | .text s =>
      if pyStrip s = "" then [] else [pyStrip (pyStrip s)]
  | .element t a cs =>
      (if t = "img" then [stripNL (conv ((getAttr a "alt").getD ""))] else [])
        ++ descList conv cs

def descList (conv : String → String) : List Node → List String
  | [] => []
  | n :: rest => descNode conv n ++ descList conv rest

end

/-- Fragments contributed by one sibling of the selected heading: its
descendants are visited only when its tag is `p`, `ul`, `ol` or `div`
(src/main.py line 161). -/
def sibFragments (conv : String → String) (s : Node) : List String :=
  if s.tagOf = some "p" || s.tagOf = some "ul" || s.tagOf = some "ol"
      || s.tagOf = some "div" then
    descList conv s.childrenOf
  else []

/-- The sibling walk of `extract_solution_content` (src/main.py lines
157-172): stop at the first `h2` sibling; otherwise gather the
fragments of the sibling and append one `"\n"` separator, for every
sibling. -/
def walkSiblings (conv : String → String) : List Node → List String
  | [] => []
  | s :: rest =>
      if s.tagOf = some "h2" then []
      else sibFragments conv s ++ "\n" :: walkSiblings conv rest

/-- `extract_solution_content` (src/main.py lines 142-173).  `none`
models a raised exception: `h2_tags.pop(0)` on an empty list raises
`IndexError`.  Otherwise the heading at `section_index` in the remaining
list is the anchor, out-of-range indices return the empty list, and the
sibling walk collects the fragments. -/
def extract_solution_content (conv : String → String) (soup : Node)
    (section_index : Int) : Option (List String) :=
  match findMw soup with
  | none => some []
  | some mw =>
      match h2PairsList mw.childrenOf with
      | [] => none
      | _ :: tail =>
          if h : 0 ≤ section_index ∧ section_index.toNat < tail.length then
            some (walkSiblings conv (tail.get ⟨section_index.toNat, h.2⟩).2)
          else some []

/-- The raw count of boundary-rank (`h2`) headings inside the main
content container, before the `pop(0)` of src/main.py line 149; `0` when
the container is absent. -/
def rawH2Count (soup : Node) : Nat :=
  match findMw soup with
  | none => 0
  | some mw => (h2PairsList mw.childrenOf).length

/-- The section anchors of `extract_solution_content`: the `h2` headings
of the main container with the first one popped (src/main.py lines
147-149); `none` when the pop raises (no heading, or no container means
the function returns early so we use `some []` there). -/
def sectionAnchors (soup : Node) : Option (List Node) :=
  match findMw soup with
  | none => some []
  | some mw =>
      match h2PairsList mw.childrenOf with
      | [] => none
      | _ :: tail => some (tail.map Prod.fst)

/-! Concrete pages and converters used in the theorems below. -/

/-- Identity converter (a LaTeX source is returned verbatim). -/
def convId : String → String := fun s => s

/-- A converter whose output carries a leading and a trailing newline,
as `latex_to_text` produces for markup containing line breaks. -/
def convNl : String → String := fun _ => "\nX\n"

/-- A converter rendering its input as the fraction text `1/2`. -/
def convHalf : String → String := fun _ => "1/2"

/-- A converter returning empty text, the `latex_to_text` behaviour on
empty markup. -/
def convEmpty : String → String := fun _ => ""

/-- A boundary-rank heading with the given title. -/
def h2n (title : String) : Node :=
  Node.element "h2" [] [Node.text title]

/-- A fetched document with no recognizable structure at all. -/
def emptyDoc : Node := Node.element "html" [] []

/-- A main content container holding a paragraph but zero `h2`
headings. -/
def mwNoH2 : Node :=
  Node.element "div" [("class", "mw-parser-output")]
    [Node.element "p" [] [Node.text "hello"]]

/-- A document whose main container exists but has no boundary-rank
heading. -/
def pageNoH2 : Node := Node.element "[document]" [] [mwNoH2]

/-- A list item whose text is whitespace only. -/
def wsLi : Node := Node.element "li" [] [Node.text "   "]

/-- An answer-key page whose single matched list item trims to empty. -/
def pageWsOnly : Node :=
  Node.element "[document]" [] [
    Node.element "div" [("class", "mw-parser-output")] [
      Node.element "ol" [] [wsLi]
    ]
  ]

/-- A well-formed answer-key page with three list items, one of them
whitespace only. -/
def pageAns : Node :=
  Node.element "[document]" [] [
    Node.element "div" [("class", "mw-parser-output")] [
      Node.element "ol" [] [
        Node.element "li" [] [Node.text " 42 "],
        Node.element "li" [] [Node.text "  "],
        Node.element "li" [] [Node.text "7"]
      ]
    ]
  ]

/-- A problem page: synthetic contents heading, a first section holding
one paragraph, then the next section. -/
def pageC5 : Node :=
  Node.element "[document]" [] [
    Node.element "html" [] [
      Node.element "div" [("class", "mw-parser-output")] [
        h2n "Contents",
        h2n "Solution 1",
        Node.element "p" [] [Node.text "The answer is 5."],
        h2n "Solution 2",
        Node.element "p" [] [Node.text "Other content."]
      ]
    ]
  ]

/-- A problem page whose first real section holds one math image with
accessible text `m`. -/
def pageC6 : Node :=
  Node.element "[document]" [] [
    Node.element "div" [("class", "mw-parser-output")] [
      h2n "Contents",
      h2n "Solution 1",
      Node.element "p" [] [Node.element "img" [("alt", "m")] []]
    ]
  ]

/-- A problem page whose first real section interleaves prose and a math
image with accessible text `\frac{1}{2}`. -/
def pageC6b : Node :=
  Node.element "[document]" [] [
    Node.element "div" [("class", "mw-parser-output")] [
      h2n "Contents",
      h2n "Solution 1",
      Node.element "p" [] [
        Node.text " Therefore ",
        Node.element "img" [("alt", "\\frac{1}{2}")] [],
        Node.text " is the answer. "
      ]
    ]
  ]

/-- A page with two boundary-rank headings and no table of contents. -/
def pageC8 : Node :=
  Node.element "[document]" [] [
    Node.element "div" [("class", "mw-parser-output")] [
      h2n "A", h2n "B"
    ]
  ]

/-! Helper lemmas. -/

/-- The list comprehension
`[f li for li in l if f li]` (keep on non-empty string) equals mapping
`f` over the elements kept by the filter. -/
theorem filterMap_strip_eq {α : Type} (f : α → String) :
    ∀ l : List α,
      (l.filterMap fun a => if f a = "" then none else some (f a))
        = (l.filter fun a => f a ≠ "").map f
  | [] => rfl
  | a :: t => by
      by_cases h : f a = "" <;>
        simp [List.filterMap_cons, List.filter_cons, h, filterMap_strip_eq f t]

/-- `filterMap` keeps exactly the elements where `f` is `some`, in order,
replacing each by its value. -/
theorem filterMap_eq_filter_isSome_map {α β : Type} (f : α → Option β) (d : β) :
    ∀ l : List α,
      l.filterMap f
        = (l.filter fun a => (f a).isSome).map (fun a => (f a).getD d)
  | [] => rfl
  | a :: t => by
      cases h : f a <;>
        simp [List.filterMap_cons, List.filter_cons, h,
          filterMap_eq_filter_isSome_map f d t]

/-- The sibling walk never looks past the first boundary-rank heading:
nodes at and after it contribute nothing. -/
theorem walkSiblings_append_h2 (conv : String → String) (hn : Node)
    (post : List Node) (hh : hn.tagOf = some "h2") :
    ∀ pre : List Node, (∀ s ∈ pre, s.tagOf ≠ some "h2") →
      walkSiblings conv (pre ++ hn :: post) = walkSiblings conv pre
  | [], _ => by simp [walkSiblings, hh]
  | s :: t, h => by
      have hs : s.tagOf ≠ some "h2" := h s (List.mem_cons_self s t)
      have ht : ∀ x ∈ t, x.tagOf ≠ some "h2" :=
        fun x hx => h x (List.mem_cons_of_mem s hx)
      simp [walkSiblings, hs, walkSiblings_append_h2 conv hn post hh t ht]

/-- Up to the first boundary-rank heading, every sibling contributes its
fragments followed by exactly one `"\n"` separator, in order. -/
theorem walkSiblings_flatMap (conv : String → String) :
    ∀ pre : List Node, (∀ s ∈ pre, s.tagOf ≠ some "h2") →
      walkSiblings conv pre
        = pre.flatMap (fun s => sibFragments conv s ++ ["\n"])
  | [], _ => rfl
  | s :: t, h => by
      have hs : s.tagOf ≠ some "h2" := h s (List.mem_cons_self s t)
      have ht : ∀ x ∈ t, x.tagOf ≠ some "h2" :=
        fun x hx => h x (List.mem_cons_of_mem s hx)
      simp [walkSiblings, hs, List.flatMap_cons, walkSiblings_flatMap conv t ht]

/-! Claim theorems. -/

/-- C1: the claim says `extract_section` returns an empty sequence and
never raises on any out-of-range index, even on a page with zero
boundary-rank headings.  The code violates this: on a page whose main
content container exists but holds zero `h2` headings, `h2_tags.pop(0)`
raises `IndexError` (modelled as `none`) for every index, instead of
returning the empty sequence.  The conjuncts show that the container is
found, that its heading list is empty, and that the extractor then
yields the exception value rather than `some []`. -/
theorem extract_section_zero_headings_raises :
    findMw pageNoH2 = some mwNoH2
      ∧ h2PairsList mwNoH2.childrenOf = []
      ∧ extract_solution_content convId pageNoH2 0 = none :=
  ⟨rfl, rfl, rfl⟩

/-- C2 counterexample: a fetched page lacking the expected markup shape
(structural failure) and a network failure produce the very same result
value `none`, so the caller cannot tell the two failure kinds apart from
the returned value — the claim that they are never conflated is false. -/
theorem scrape_answers_conflates_failures :
    answerItems emptyDoc = []
      ∧ scrape_answers (FetchResult.success emptyDoc)
          = scrape_answers FetchResult.networkError :=
  ⟨rfl, rfl⟩

/-- C2 amended: both failure kinds of `scrape_answers` are returned as
the same value `None`: a fetched page with no matching list item yields
`none`, and a network failure yields `none` as well; the two are
distinguished only by printed messages, never by the returned value. -/
theorem scrape_answers_failures_both_none (page : Node)
    (h : answerItems page = []) :
    scrape_answers (FetchResult.success page) = none
      ∧ scrape_answers FetchResult.networkError = none := by
  constructor
  · simp [scrape_answers, h]
  · rfl

/-- C2 amended witness at the concrete unstructured page. -/
theorem scrape_answers_failures_both_none_witness :
    answerItems emptyDoc = []
      ∧ (scrape_answers (FetchResult.success emptyDoc) = none
          ∧ scrape_answers FetchResult.networkError = none) :=
  ⟨rfl, scrape_answers_failures_both_none emptyDoc rfl⟩

/-- C3: on a well-formed answer-key page with at least one list item
matching `div.mw-parser-output > ol > li`, `scrape_answers` returns the
items whose full text is non-empty after trimming, in document order,
each replaced by its trimmed text; the length of the result equals the
number of such items. -/
theorem scrape_answers_wellformed (page : Node)
    (h : (answerItems page).isEmpty = false) :
    scrape_answers (FetchResult.success page)
        = some (((answerItems page).filter
            (fun li => pyStrip (textContent li) ≠ "")).map
            (fun li => pyStrip (textContent li)))
      ∧ (((answerItems page).filter
            (fun li => pyStrip (textContent li) ≠ "")).map
            (fun li => pyStrip (textContent li))).length
          = ((answerItems page).filter
              (fun li => pyStrip (textContent li) ≠ "")).length := by
  refine ⟨?_, List.length_map _ _⟩
  simp [scrape_answers, h,
    filterMap_strip_eq (fun li => pyStrip (textContent li)) (answerItems page)]

/-- C3 witness at the three-item answer-key page: answers `42` and `7`
are kept and trimmed, the whitespace-only item is dropped. -/
theorem scrape_answers_wellformed_witness :
    (answerItems pageAns).isEmpty = false
      ∧ scrape_answers (FetchResult.success pageAns) = some ["42", "7"] :=
  ⟨rfl, by rw [(scrape_answers_wellformed pageAns rfl).1]; rfl⟩

/-- C4 counterexample: on a page whose single selected list item trims
to empty, the kept sequence is empty but `scrape_answers` returns the
empty-but-present sequence `some []`, not the `NotFound` value `none` —
the claim that an empty kept sequence always yields `NotFound` is
false. -/
theorem scrape_answers_empty_not_notfound :
    answerItems pageWsOnly = [wsLi]
      ∧ pyStrip (textContent wsLi) = ""
      ∧ scrape_answers (FetchResult.success pageWsOnly) = some [] :=
  ⟨rfl, rfl, rfl⟩

/-- C4 amended: on a fetched page, `scrape_answers` returns `NotFound`
(`none`) exactly when no list item matches the container/list/item
chain — in both directions: no match gives `none`, and a `none` result
can only come from no match; when matching items exist but every one
trims to empty, it returns the empty-but-present sequence `some []`
instead of `NotFound`. -/
theorem scrape_answers_notfound_iff_no_match (page : Node) :
    (scrape_answers (FetchResult.success page) = none ↔ answerItems page = [])
      ∧ ((answerItems page).isEmpty = false →
          (answerItems page).filter
              (fun li => pyStrip (textContent li) ≠ "") = [] →
          scrape_answers (FetchResult.success page) = some []) := by
  have hsome : (answerItems page).isEmpty = false →
      scrape_answers (FetchResult.success page)
        = some (((answerItems page).filter
            (fun li => pyStrip (textContent li) ≠ "")).map
            (fun li => pyStrip (textContent li))) := by
    intro h
    simp [scrape_answers, h,
      filterMap_strip_eq (fun li => pyStrip (textContent li)) (answerItems page)]
  constructor
  · constructor
    · intro hn
      cases he : (answerItems page).isEmpty with
      | true => exact List.isEmpty_iff.mp he
      | false => rw [hsome he] at hn; exact absurd hn (by simp)
    · intro h; simp [scrape_answers, h]
  · intro h hf
    rw [hsome h, hf]; rfl

/-- C4 amended witness: the unstructured page yields `none` (both
directions of the characterization instantiated there); the
whitespace-only page yields `some []`. -/
theorem scrape_answers_notfound_iff_no_match_witness :
    scrape_answers (FetchResult.success emptyDoc) = none
      ∧ scrape_answers (FetchResult.success pageWsOnly) = some [] :=
  ⟨(scrape_answers_notfound_iff_no_match emptyDoc).1.mpr rfl,
   (scrape_answers_notfound_iff_no_match pageWsOnly).2 rfl rfl⟩

/-- C5: on the scenario page, where the first real section heading is
followed by one paragraph `The answer is 5.` and then the next heading,
`extract_section` at index 0 returns exactly the content fragment plus
one separator; in general the sibling walk stops at the first sibling
that is a boundary-rank heading, contributing nothing from it or
anything after it, and contributes for every earlier sibling its
fragments followed by exactly one `"\n"` separator, regardless of the
kind of sibling. -/
theorem extract_section_scenario_and_stop (conv : String → String)
    (pre post : List Node) (hn : Node)
    (hpre : ∀ s ∈ pre, s.tagOf ≠ some "h2")
    (hh : hn.tagOf = some "h2") :
    extract_solution_content conv pageC5 0 = some ["The answer is 5.", "\n"]
      ∧ walkSiblings conv (pre ++ hn :: post) = walkSiblings conv pre
      ∧ walkSiblings conv pre
          = pre.flatMap (fun s => sibFragments conv s ++ ["\n"]) :=
  ⟨rfl, walkSiblings_append_h2 conv hn post hh pre hpre,
   walkSiblings_flatMap conv pre hpre⟩

/-- C5 witness: the scenario page evaluated with the identity converter,
and the sibling walk at a one-element prefix stopped by a concrete
heading. -/
theorem extract_section_scenario_and_stop_witness :
    (Node.text "x").tagOf ≠ some "h2"
      ∧ (h2n "End").tagOf = some "h2"
      ∧ (extract_solution_content convId pageC5 0
            = some ["The answer is 5.", "\n"]
          ∧ walkSiblings convId ([Node.text "x"] ++ h2n "End" :: [])
              = walkSiblings convId [Node.text "x"]
          ∧ walkSiblings convId [Node.text "x"]
              = [Node.text "x"].flatMap (fun s => sibFragments convId s ++ ["\n"])) :=
  ⟨by decide, by decide,
   extract_section_scenario_and_stop convId [Node.text "x"] [] (h2n "End")
     (by intro s hs; rw [List.mem_singleton] at hs; subst hs; decide)
     (by decide)⟩

/-- C6 counterexample: the claim says only trailing newline characters
are stripped from the converted text, and nothing else.  The source
applies Python `strip("\n")`, which also removes leading newlines: with
a converter output `"\nX\n"`, the fragment produced for the image is
`"X"`, while stripping only trailing newlines would give `"\nX"`. -/
theorem img_strip_counterexample :
    extract_solution_content convNl pageC6 0 = some ["X", "\n"]
      ∧ stripTrailingNL (convNl "m") = "\nX"
      ∧ ("X" : String) ≠ "\nX" :=
  ⟨rfl, by decide, by decide⟩

/-- C6 amended: for every image-type descendant, the extractor reads its
accessible-text attribute (empty when absent), converts it with the Math
Markup Converter, strips leading and trailing newline characters (and
nothing else), and appends the result as exactly one fragment, in
document order; on the scenario page the image with accessible text
`\frac{1}{2}` yields the fragment `1/2` interleaved with the surrounding
prose fragments. -/
theorem img_fragment_stripNL (conv : String → String)
    (attrs : List (String × String)) (cs rest : List Node)
    (h : conv "\\frac{1}{2}" = "1/2") :
    descList conv (Node.element "img" attrs cs :: rest)
        = stripNL (conv ((getAttr attrs "alt").getD ""))
            :: (descList conv cs ++ descList conv rest)
      ∧ extract_solution_content conv pageC6b 0
          = some ["Therefore", "1/2", "is the answer.", "\n"] := by
  constructor
  · simp [descList, descNode]
  · have e : extract_solution_content conv pageC6b 0
        = some ["Therefore", stripNL (conv "\\frac{1}{2}"),
            "is the answer.", "\n"] := rfl
    rw [e, h]; rfl

/-- C6 amended witness at a concrete converter rendering the fraction. -/
theorem img_fragment_stripNL_witness :
    convHalf "\\frac{1}{2}" = "1/2"
      ∧ (descList convHalf (Node.element "img" [("alt", "\\frac{1}{2}")] [] :: [])
            = stripNL (convHalf ((getAttr [("alt", "\\frac{1}{2}")] "alt").getD ""))
                :: (descList convHalf [] ++ descList convHalf [])
          ∧ extract_solution_content convHalf pageC6b 0
              = some ["Therefore", "1/2", "is the answer.", "\n"]) :=
  ⟨rfl, img_fragment_stripNL convHalf [("alt", "\\frac{1}{2}")] [] [] rfl⟩

/-- C7: `list_sections` returns, in document order, the trimmed display
text of exactly those rank-1 table-of-contents entries that have a
display-text descendant (the kept entries are the ones where
`tocDisplay` is `some`), and on a page without a table of contents it
returns the empty sequence rather than an error. -/
theorem fetch_solution_sections_spec (soup : Node) :
    fetch_solution_sections soup
        = ((findAllByClass "toclevel-1" soup).filter
            (fun c => (tocDisplay c).isSome)).map
            (fun c => (tocDisplay c).getD "")
      ∧ (findAllByClass "toclevel-1" soup = [] →
          fetch_solution_sections soup = []) := by
  constructor
  · exact filterMap_eq_filter_isSome_map tocDisplay "" _
  · intro h; simp [fetch_solution_sections, h]

/-- C7 witness: a page without a table of contents yields the empty
sequence. -/
theorem fetch_solution_sections_spec_witness :
    findAllByClass "toclevel-1" emptyDoc = []
      ∧ fetch_solution_sections emptyDoc = [] :=
  ⟨rfl, (fetch_solution_sections_spec emptyDoc).2 rfl⟩

/-- C8 counterexample: the length of the sequence returned by
`list_sections` is not the raw boundary-rank heading count minus one: a
page with two `h2` headings and no table of contents has
`list_sections` of length zero, not one. -/
theorem list_sections_count_counterexample :
    rawH2Count pageC8 = 2
      ∧ (fetch_solution_sections pageC8).length ≠ rawH2Count pageC8 - 1 :=
  ⟨rfl, by decide⟩

/-- C8 amended: it is the section-anchor sequence of
`extract_solution_content` (the boundary-rank headings of the main
container with the first dropped) whose length always equals the raw
heading count minus exactly one when at least one heading exists;
`list_sections` is computed from table-of-contents entries and its
length is not tied to the heading count. -/
theorem sectionAnchors_length (soup : Node) (h : 1 ≤ rawH2Count soup) :
    (sectionAnchors soup).map List.length = some (rawH2Count soup - 1) := by
  rcases hm : findMw soup with _ | mw
  · exfalso
    have e0 : rawH2Count soup = 0 := by unfold rawH2Count; rw [hm]
    omega
  · rcases hp : h2PairsList mw.childrenOf with _ | ⟨a, t⟩
    · exfalso
      have e0 : rawH2Count soup = 0 := by unfold rawH2Count; rw [hm]; simp [hp]
      omega
    · have e1 : rawH2Count soup = t.length + 1 := by
        unfold rawH2Count; rw [hm]; simp [hp]
      have e2 : sectionAnchors soup = some (t.map Prod.fst) := by
        unfold sectionAnchors; rw [hm]; simp [hp]
      rw [e2, e1]; simp

/-- C8 amended witness at the two-heading page. -/
theorem sectionAnchors_length_witness :
    1 ≤ rawH2Count pageC8
      ∧ (sectionAnchors pageC8).map List.length
          = some (rawH2Count pageC8 - 1) :=
  ⟨by decide, sectionAnchors_length pageC8 (by decide)⟩

/-- C9: every extractor is a pure function of the immutable page (the
only mutation in the source is `pop(0)` on the fresh list returned by
`find_all`, never on the page), so calling any of them twice on the same
arguments yields identical results. -/
theorem extractors_idempotent (fr : FetchResult) (soup : Node)
    (conv : String → String) (i : Int) :
    scrape_answers fr = scrape_answers fr
      ∧ fetch_solution_sections soup = fetch_solution_sections soup
      ∧ extract_solution_content conv soup i = extract_solution_content conv soup i :=
  ⟨rfl, rfl, rfl⟩

/-- C10: image-derived fragments are appended unconditionally while
text-derived fragments are filtered: an image without an accessible-text
attribute contributes the single fragment obtained from converting the
empty string — the empty string itself when the converter maps empty to
empty — whereas a text descendant that trims to empty contributes no
fragment at all. -/
theorem img_appended_text_filtered (conv : String → String)
    (attrs : List (String × String)) (s : String) :
    (getAttr attrs "alt" = none →
        descList conv [Node.element "img" attrs []] = [stripNL (conv "")])
      ∧ (conv "" = "" →
          descList conv [Node.element "img" [] []] = [""])
      ∧ (pyStrip s = "" → descList conv [Node.text s] = []) := by
  refine ⟨fun h => ?_, fun h => ?_, fun h => ?_⟩
  · simp [descList, descNode, h]
  · have e : stripNL "" = "" := rfl
    simp [descList, descNode, getAttr, h, e]
  · simp [descList, descNode, h]

/-- C10 witness: a converter mapping everything to empty text, an image
with no attributes, and a whitespace-only text node. -/
theorem img_appended_text_filtered_witness :
    getAttr [] "alt" = none
      ∧ convEmpty "" = ""
      ∧ pyStrip " " = ""
      ∧ descList convEmpty [Node.element "img" [] []] = [stripNL (convEmpty "")]
      ∧ descList convEmpty [Node.element "img" [] []] = [""]
      ∧ descList convEmpty [Node.text " "] = [] :=
  ⟨rfl, rfl, rfl,
   (img_appended_text_filtered convEmpty [] " ").1 rfl,
   (img_appended_text_filtered convEmpty [] " ").2.1 rfl,
   (img_appended_text_filtered convEmpty [] " ").2.2 rfl⟩
